import Mathlib

/-!
Verification of the CppServer TCP server core (include/server/tcp/server.inl).

The C++ methods of `TCPServer` are embedded as pure state transformers
returning the successor state together with the list of observable events
fired during the call (lifecycle hooks, registry mutations, accept arming,
service stop, thread spawn and join).  The session registry
(`std::map<UUID, std::shared_ptr<TSession>>`) is embedded as an association
list with `find` / `erase(iterator)` / `emplace` translated operation by
operation.  The concurrent behaviour of the loop thread and of the asio
completion handlers is modelled by a small-step relation whose steps apply
these transformers at the granularity of one dispatched handler; `Reachable`
collects the states of all interleavings.
-/

set_option linter.unusedVariables false

namespace CppServer

/-- Error information carried by an asio `std::error_code`: numeric value,
category name and human-readable message (the triple forwarded to `onError`). -/
structure ErrorInfo where
  value : Int
  category : String
  message : String
deriving DecidableEq, Repr

/-- A TCP session as created by `RegisterSession`: its unique identifier
(`CppCommon::UUID::Generate()`, modelled as a Nat drawn from a counter) and
the accepted socket that is moved into it. -/
structure Session where
  id : Nat
  socket : Nat
deriving DecidableEq, Repr

/-- Observable actions of the server: the virtual lifecycle hooks of
`TCPServer`, plus markers for registry mutations, accept arming, session
disconnect signals, stopping the asio service, and spawning or joining the
server thread. -/
inductive Event where
  | onStarting
  | onStarted
  | onStopping
  | onStopped
  | onThreadInit
  | onThreadCleanup
  | onConnected (session : Session)
  | onDisconnected (session : Session)
  | onError (value : Int) (category : String) (message : String)
  | fatality (message : String)
  | insertSession (id : Nat) (session : Session)
  | eraseSession (id : Nat)
  | armAccept
  | disconnectSignal (id : Nat)
  | serviceStop
  | threadSpawn
  | threadJoin
deriving DecidableEq, Repr

/-- `std::map::find`: the registry entry for a key, if present. -/
def mapFind : List (Nat × Session) → Nat → Option Session
  | [], _ => none
  | p :: rest, k => if p.1 = k then some p.2 else mapFind rest k

/-- `std::map::erase(iterator)`: remove the (first) entry found for a key. -/
def mapErase : List (Nat × Session) → Nat → List (Nat × Session)
  | [], _ => []
  | p :: rest, k => if p.1 = k then rest else p :: mapErase rest k

/-- `std::map::emplace`: insert only when the key is not already present;
on a duplicate key the map is left unchanged. -/
def mapEmplace (m : List (Nat × Session)) (k : Nat) (v : Session) :
    List (Nat × Session) :=
  match mapFind m k with
  | some _ => m
  | none => (k, v) :: m

/-- The per-instance data of `TCPServer` visible to the embedded methods:
the `_started` flag, the `_sessions` registry, the UUID generator state and
the number of asynchronous accept operations currently outstanding on the
acceptor. -/
structure ServerState where
  started : Bool
  sessions : List (Nat × Session)
  nextId : Nat
  pending : Nat
deriving DecidableEq, Repr

/-- `TCPServer::IsStarted`. -/
def IsStarted (s : ServerState) : Bool :=
  s.started

/-- `TCPServer::ServerAccept`: if the server is not started, return at once;
otherwise schedule one asynchronous accept on the acceptor. -/
def ServerAccept (s : ServerState) : ServerState × List Event :=
  if !IsStarted s then (s, [])
  else ({ s with pending := s.pending + 1 }, [Event.armAccept])

/-- `TCPServer::RegisterSession`: create a session from a freshly generated
identifier and the accepted socket, `emplace` it into the registry under the
lock, then fire `onConnected` and return the new session. -/
def RegisterSession (s : ServerState) (sock : Nat) :
    Session × ServerState × List Event :=
  let session : Session := { id := s.nextId, socket := sock }
  let s' : ServerState :=
    { s with sessions := mapEmplace s.sessions session.id session,
             nextId := s.nextId + 1 }
  let insEv : List Event :=
    match mapFind s.sessions session.id with
    | some _ => []
    | none => [Event.insertSession session.id session]
  (session, s', insEv ++ [Event.onConnected session])

/-- `TCPServer::UnregisterSession`: under the lock, look the identifier up;
if found, cache the session and erase the entry; after releasing the lock,
fire `onDisconnected` with the cached session (nothing happens on a miss). -/
def UnregisterSession (s : ServerState) (id : Nat) :
    ServerState × List Event :=
  match mapFind s.sessions id with
  | some sess =>
      ({ s with sessions := mapErase s.sessions id },
       [Event.eraseSession id, Event.onDisconnected sess])
  | none => (s, [])

/-- Modelled from the spec: `TSession::Disconnect` is declared by the session
class, which is not part of this file.  Per the spec, `Stop` "disconnects all
currently registered sessions", every previously-registered session "has
received a disconnect signal", a session's connected lifetime ends with
`onDisconnected`, and the "Registry is empty post-`Stop`"; so a disconnect
signal makes the session unregister itself from its owning server. -/
def SessionDisconnect (s : ServerState) (sess : Session) :
    ServerState × List Event :=
  let (s', ev) := UnregisterSession s sess.id
  (s', Event.disconnectSignal sess.id :: ev)

/-- The range-for of `TCPServer::DisconnectAll`: disconnect every session of
the cached snapshot in order, threading the live server state through. -/
def disconnectList (s : ServerState) :
    List (Nat × Session) → ServerState × List Event
  | [] => (s, [])
  | p :: rest =>
      let (s1, ev1) := SessionDisconnect s p.2
      let (s2, ev2) := disconnectList s1 rest
      (s2, ev1 ++ ev2)

/-- `TCPServer::DisconnectAll`: snapshot the registry under the lock, then
disconnect every session of the snapshot outside the lock. -/
def DisconnectAll (s : ServerState) : ServerState × List Event :=
  disconnectList s s.sessions

/-- The whole server instance: the shared `ServerState` plus the state of
the `_thread` member (spawned / joined) and whether the loop thread has
already executed its initial `ServerAccept` call. -/
structure SysState where
  srv : ServerState
  threadSpawned : Bool
  threadJoined : Bool
  loopArmed : Bool
deriving DecidableEq, Repr

/-- `TCPServer::Start`: no-op when already started; otherwise fire
`onStarting`, spawn the server thread and set the started flag. -/
def Start (s : SysState) : SysState × List Event :=
  if IsStarted s.srv then (s, [])
  else
    ({ s with threadSpawned := true,
              srv := { s.srv with started := true } },
     [Event.onStarting, Event.threadSpawn])

/-- `TCPServer::Stop`: no-op when not started; otherwise fire `onStopping`,
clear the started flag, disconnect all sessions, stop the asio service and
join the server thread (blocking until the loop thread has exited). -/
def Stop (s : SysState) : SysState × List Event :=
  if !IsStarted s.srv then (s, [])
  else
    let s1 : ServerState := { s.srv with started := false }
    let (s2, ev2) := DisconnectAll s1
    ({ s with srv := s2, threadJoined := true },
     Event.onStopping :: ev2 ++ [Event.serviceStop, Event.threadJoin])

/-- The completion handler passed to `async_accept` in `ServerAccept`: the
completed operation is consumed; on success `RegisterSession` runs, on error
`onError` is fired with the code's value, category name and message; either
way `ServerAccept` is invoked to perform the next accept. -/
def acceptHandler (s : ServerState) (ec : ErrorInfo) (sock : Nat) :
    ServerState × List Event :=
  let s0 : ServerState := { s with pending := s.pending - 1 }
  if ec.value = 0 then
    let (_, s1, ev1) := RegisterSession s0 sock
    let (s2, ev2) := ServerAccept s1
    (s2, ev1 ++ ev2)
  else
    let (s2, ev2) := ServerAccept s0
    (s2, Event.onError ec.value ec.category ec.message :: ev2)

/-- The prefix of `TCPServer::ServerLoop` run once by the loop thread before
entering the dispatch loop: `onThreadInitialize`-hook, `onStarted`, and the
first `ServerAccept`. -/
def loopInitStep (s : ServerState) : ServerState × List Event :=
  let (s1, ev1) := ServerAccept s
  (s1, Event.onThreadInit :: Event.onStarted :: ev1)

/-- The `onError` reports produced by the dispatch loop of `ServerLoop`:
one per iteration whose `_service.run(ec)` call surfaced an error. -/
def dispatchEvents (iters : List (Option ErrorInfo)) : List Event :=
  iters.filterMap (fun o =>
    Option.map (fun e => Event.onError e.value e.category e.message) o)

/-- The try-block body of `TCPServer::ServerLoop` as an event trace:
`onStarted`, the first `ServerAccept`, the dispatch loop (`iters` lists the
outcome of each `_service.run(ec)` iteration executed while the started flag
read true), and `onStopped`. -/
def serverLoopBody (s : ServerState) (iters : List (Option ErrorInfo)) :
    List Event :=
  Event.onStarted :: (ServerAccept s).2 ++ dispatchEvents iters ++
    [Event.onStopped]

/-- `TCPServer::ServerLoop` as an event trace.  `fault = none` is a normal
run; `fault = some k` means an exception escaped the try block after `k` of
its steps had completed, so the catch handler fires the `fatality` hook with
"TCP server thread terminated!"; in both cases the thread-cleanup hook runs
last. -/
def ServerLoop (s : ServerState) (iters : List (Option ErrorInfo))
    (fault : Option Nat) : List Event :=
  match fault with
  | none =>
      Event.onThreadInit :: serverLoopBody s iters ++ [Event.onThreadCleanup]
  | some k =>
      Event.onThreadInit :: (serverLoopBody s iters).take k ++
        [Event.fatality "TCP server thread terminated!",
         Event.onThreadCleanup]

/-- A control call issued by an external thread. -/
inductive Call where
  | startCall
  | stopCall
deriving DecidableEq, Repr

/-- Apply one external control call. -/
def applyCall (s : SysState) : Call → SysState
  | Call.startCall => (Start s).1
  | Call.stopCall => (Stop s).1

/-- Apply a sequence of external control calls in order. -/
def applyCalls (s : SysState) (cs : List Call) : SysState :=
  cs.foldl applyCall s

/-- The fresh server produced by the constructor: not started, empty
registry, no outstanding accept, thread neither spawned nor joined. -/
def initState : SysState :=
  { srv := { started := false, sessions := [], nextId := 0, pending := 0 },
    threadSpawned := false,
    threadJoined := false,
    loopArmed := false }

/-- One atomic step of the server system, at the granularity of one
dispatched handler or one control call.  `start` and `stop` are the control
methods invoked from an external thread (the spec's controller state machine
treats `Stopped` as terminal, so `Start` is only invoked before the thread
has been joined).  `loopInit` is the loop thread executing its prefix up to
and including the first `ServerAccept`; it requires the thread to exist and
runs once.  `accept` dispatches the completion handler of an outstanding
accept; completions are dispatched by `_service.run` on the live loop
thread only. -/
inductive Step : SysState → SysState → Prop where
  | start (s : SysState) (h : s.threadJoined = false) :
      Step s (Start s).1
  | stop (s : SysState) :
      Step s (Stop s).1
  | loopInit (s : SysState) (h1 : s.threadSpawned = true)
      (h2 : s.threadJoined = false) (h3 : s.loopArmed = false) :
      Step s { s with srv := (loopInitStep s.srv).1, loopArmed := true }
  | accept (s : SysState) (ec : ErrorInfo) (sock : Nat)
      (h1 : s.threadSpawned = true) (h2 : s.threadJoined = false)
      (h3 : 1 ≤ s.srv.pending) :
      Step s { s with srv := (acceptHandler s.srv ec sock).1 }

/-- States reachable from the fresh server by any interleaving of steps. -/
inductive Reachable : SysState → Prop where
  | init : Reachable initState
  | step {s s' : SysState} : Reachable s → Step s s' → Reachable s'

section Lemmas

/-- A key is absent from the registry iff no entry carries it. -/
lemma mapFind_eq_none_iff (m : List (Nat × Session)) (k : Nat) :
    mapFind m k = none ↔ ∀ p ∈ m, p.1 ≠ k := by
  induction m with
  | nil => simp [mapFind]
  | cons p rest ih =>
      by_cases h : p.1 = k <;> simp [mapFind, h, ih]

/-- Erasing a key yields a sublist of the registry. -/
lemma mapErase_sublist (m : List (Nat × Session)) (k : Nat) :
    (mapErase m k).Sublist m := by
  induction m with
  | nil => simp [mapErase]
  | cons p rest ih =>
      by_cases h : p.1 = k
      · rw [mapErase, if_pos h]
        exact List.sublist_cons_self p rest
      · simpa [mapErase, h] using List.Sublist.cons₂ p ih

/-- With distinct keys, an erased key is no longer found. -/
lemma mapFind_erase_self (m : List (Nat × Session)) (k : Nat)
    (hnodup : (m.map Prod.fst).Nodup) :
    mapFind (mapErase m k) k = none := by
  induction m with
  | nil => simp [mapErase, mapFind]
  | cons p rest ih =>
      rw [List.map_cons, List.nodup_cons] at hnodup
      by_cases h : p.1 = k
      · rw [mapErase, if_pos h]
        refine (mapFind_eq_none_iff rest k).2 (fun q hq => ?_)
        intro hqk
        exact hnodup.1 (h ▸ hqk ▸ List.mem_map_of_mem Prod.fst hq)
      · rw [mapErase, if_neg h, mapFind, if_neg h]
        exact ih hnodup.2

/-- A fresh insertion is found back. -/
lemma mapFind_emplace_self (m : List (Nat × Session)) (k : Nat) (v : Session)
    (h : mapFind m k = none) :
    mapFind (mapEmplace m k v) k = some v := by
  simp [mapEmplace, h, mapFind]

/-- `UnregisterSession` touches only the registry. -/
lemma unregister_preserve (s : ServerState) (id : Nat) :
    (UnregisterSession s id).1.started = s.started
  ∧ (UnregisterSession s id).1.pending = s.pending
  ∧ (UnregisterSession s id).1.nextId = s.nextId := by
  unfold UnregisterSession
  cases h : mapFind s.sessions id <;> simp

/-- `disconnectList` touches only the registry. -/
lemma disconnectList_preserve (l : List (Nat × Session)) (s : ServerState) :
    (disconnectList s l).1.started = s.started
  ∧ (disconnectList s l).1.pending = s.pending
  ∧ (disconnectList s l).1.nextId = s.nextId := by
  induction l generalizing s with
  | nil => simp [disconnectList]
  | cons p rest ih =>
      have h1 := unregister_preserve s p.2.id
      have h2 := ih (UnregisterSession s p.2.id).1
      simp only [disconnectList, SessionDisconnect]
      exact ⟨h2.1.trans h1.1, h2.2.1.trans h1.2.1, h2.2.2.trans h1.2.2⟩

/-- Every session of the snapshot receives its disconnect signal. -/
lemma disconnectList_signals (l : List (Nat × Session)) (s : ServerState) :
    ∀ p ∈ l, Event.disconnectSignal p.2.id ∈ (disconnectList s l).2 := by
  induction l generalizing s with
  | nil => simp
  | cons q rest ih =>
      intro p hp
      simp only [disconnectList, SessionDisconnect, List.mem_append]
      rcases List.mem_cons.1 hp with h | h
      · subst h
        exact Or.inl (List.mem_cons_self _ _)
      · exact Or.inr (ih (UnregisterSession s q.2.id).1 p h)

/-- Disconnecting the whole registry snapshot empties the registry, provided
each entry is keyed by its session's own identifier. -/
lemma disconnectList_empties (l : List (Nat × Session)) (s : ServerState)
    (hsess : s.sessions = l) (hkeys : ∀ p ∈ l, p.1 = p.2.id) :
    (disconnectList s l).1.sessions = [] := by
  induction l generalizing s with
  | nil => simpa [disconnectList] using hsess
  | cons p rest ih =>
      have hk : p.1 = p.2.id := hkeys p (List.mem_cons_self _ _)
      have hfind : mapFind s.sessions p.2.id = some p.2 := by
        rw [hsess, ← hk, mapFind, if_pos rfl]
      have herase : mapErase s.sessions p.2.id = rest := by
        rw [hsess, ← hk, mapErase, if_pos rfl]
      simp only [disconnectList, SessionDisconnect]
      apply ih
      · simp [UnregisterSession, hfind, herase]
      · exact fun q hq => hkeys q (List.mem_cons_of_mem p hq)

end Lemmas

/-- C5: after any `Start` the flag is true; after any `Stop` it is false;
`Start` on a started server is a complete no-op firing no hook, as is `Stop`
on a non-started server; and over any non-empty sequence of control calls,
`IsStarted` reflects the most recent call. -/
theorem claim5_start_stop_idempotent (s : SysState) (cs : List Call)
    (c : Call) :
    ((Start s).1).srv.started = true
  ∧ ((Stop s).1).srv.started = false
  ∧ (IsStarted s.srv = true → Start s = (s, []))
  ∧ (IsStarted s.srv = false → Stop s = (s, []))
  ∧ (applyCalls s (cs ++ [c])).srv.started =
      (match c with | Call.startCall => true | Call.stopCall => false) := by
  have hstart : ∀ t : SysState, ((Start t).1).srv.started = true := by
    intro t
    unfold Start
    by_cases h : IsStarted t.srv
    · simp only [if_pos h]
      exact h
    · simp [if_neg h]
  have hstop : ∀ t : SysState, ((Stop t).1).srv.started = false := by
    intro t
    unfold Stop
    by_cases h : IsStarted t.srv
    · have hb : (!IsStarted t.srv) = false := by simp [h]
      simp only [hb, Bool.false_eq_true, if_false]
      exact (disconnectList_preserve _ _).1
    · have hb : (!IsStarted t.srv) = true := by simp [h]
      simp only [hb, if_true]
      simpa [IsStarted] using h
  refine ⟨hstart s, hstop s, ?_, ?_, ?_⟩
  · intro h
    simp [Start, h]
  · intro h
    simp [Stop, h]
  · rw [applyCalls, List.foldl_append]
    cases c with
    | startCall => exact hstart _
    | stopCall => exact hstop _

/-- Witness for C5 at concrete inputs. -/
theorem claim5_witness :
    ((Start initState).1).srv.started = true
  ∧ ((Stop initState).1).srv.started = false
  ∧ Stop initState = (initState, [])
  ∧ (applyCalls initState ([Call.startCall] ++ [Call.stopCall])).srv.started
      = false := by
  have h := claim5_start_stop_idempotent initState [Call.startCall]
    Call.stopCall
  exact ⟨h.1, h.2.1, h.2.2.2.1 rfl, h.2.2.2.2⟩

/-- C7: `Stop` on a server that is not started returns at once, leaves the
whole state unchanged and fires no hook and no error. -/
theorem claim7_stop_not_started_noop (s : SysState)
    (h : IsStarted s.srv = false) :
    Stop s = (s, []) := by
  simp [Stop, h]

/-- Witness for C7: a freshly constructed, never-started server. -/
theorem claim7_witness :
    IsStarted initState.srv = false ∧ Stop initState = (initState, []) :=
  ⟨rfl, claim7_stop_not_started_noop initState rfl⟩

/-- C9: when the freshly generated identifier is already registered, the
`emplace` is a silent no-op (the registry and the original mapping are
unchanged), yet `onConnected` still fires with, and `RegisterSession` still
returns, the newly created session that was never inserted. -/
theorem claim9_duplicate_id_register (s : ServerState) (sock : Nat)
    (old : Session) (h : mapFind s.sessions s.nextId = some old) :
    (RegisterSession s sock).1 = { id := s.nextId, socket := sock }
  ∧ ((RegisterSession s sock).2.1).sessions = s.sessions
  ∧ mapFind ((RegisterSession s sock).2.1).sessions s.nextId = some old
  ∧ (RegisterSession s sock).2.2 =
      [Event.onConnected { id := s.nextId, socket := sock }] := by
  refine ⟨rfl, ?_, ?_, ?_⟩
  · simp [RegisterSession, mapEmplace, h]
  · simp [RegisterSession, mapEmplace, h]
  · simp [RegisterSession, h]

/-- Witness for C9: registry already holds a session under the next id. -/
theorem claim9_witness :
    mapFind [(4, ({ id := 4, socket := 9 } : Session))] 4 =
      some { id := 4, socket := 9 }
  ∧ ((RegisterSession
        { started := true,
          sessions := [(4, { id := 4, socket := 9 })],
          nextId := 4, pending := 1 } 2).1 =
      { id := 4, socket := 2 }
  ∧ ((RegisterSession
        { started := true,
          sessions := [(4, { id := 4, socket := 9 })],
          nextId := 4, pending := 1 } 2).2.1).sessions =
      [(4, { id := 4, socket := 9 })]
  ∧ mapFind ((RegisterSession
        { started := true,
          sessions := [(4, { id := 4, socket := 9 })],
          nextId := 4, pending := 1 } 2).2.1).sessions 4 =
      some { id := 4, socket := 9 }
  ∧ (RegisterSession
        { started := true,
          sessions := [(4, { id := 4, socket := 9 })],
          nextId := 4, pending := 1 } 2).2.2 =
      [Event.onConnected { id := 4, socket := 2 }]) :=
  ⟨by decide,
   claim9_duplicate_id_register
     { started := true, sessions := [(4, { id := 4, socket := 9 })],
       nextId := 4, pending := 1 } 2 { id := 4, socket := 9 } (by decide)⟩

/-- C4: with a fresh identifier, `RegisterSession` performs the registry
insertion strictly before firing `onConnected` (the event trace is literally
insertion followed by the hook) and the session is found in the registry
afterwards; `UnregisterSession` on a registered identifier erases the entry
strictly before firing `onDisconnected` and the identifier is absent
afterwards; and both operations preserve distinctness of the registered
identifiers, so no identifier is ever mapped to two sessions at once. -/
theorem claim4_registry_ordering (s : ServerState) (sock : Nat) (id : Nat)
    (hnodup : (s.sessions.map Prod.fst).Nodup) :
    (mapFind s.sessions s.nextId = none →
       (RegisterSession s sock).2.2 =
         [Event.insertSession s.nextId { id := s.nextId, socket := sock },
          Event.onConnected { id := s.nextId, socket := sock }]
     ∧ mapFind ((RegisterSession s sock).2.1).sessions s.nextId =
         some { id := s.nextId, socket := sock }
     ∧ (((RegisterSession s sock).2.1).sessions.map Prod.fst).Nodup)
  ∧ (∀ sess, mapFind s.sessions id = some sess →
       (UnregisterSession s id).2 =
         [Event.eraseSession id, Event.onDisconnected sess]
     ∧ mapFind ((UnregisterSession s id).1).sessions id = none
     ∧ (((UnregisterSession s id).1).sessions.map Prod.fst).Nodup) := by
  constructor
  · intro hfresh
    refine ⟨?_, ?_, ?_⟩
    · simp [RegisterSession, hfresh]
    · simp only [RegisterSession]
      exact mapFind_emplace_self s.sessions s.nextId _ hfresh
    · simp only [RegisterSession, mapEmplace, hfresh, List.map_cons]
      rw [List.nodup_cons]
      exact ⟨fun hmem => by
        rcases List.mem_map.1 hmem with ⟨q, hq, hq1⟩
        exact ((mapFind_eq_none_iff s.sessions s.nextId).1 hfresh q hq) hq1,
        hnodup⟩
  · intro sess hfind
    refine ⟨?_, ?_, ?_⟩
    · simp [UnregisterSession, hfind]
    · simp only [UnregisterSession, hfind]
      exact mapFind_erase_self s.sessions id hnodup
    · simp only [UnregisterSession, hfind]
      exact hnodup.sublist ((mapErase_sublist s.sessions id).map Prod.fst)

/-- Witness for C4 at a concrete one-session registry. -/
theorem claim4_witness :
    ((([(7, ({ id := 7, socket := 3 } : Session))]).map Prod.fst).Nodup)
  ∧ (mapFind [(7, ({ id := 7, socket := 3 } : Session))] 8 = none →
       (RegisterSession
          { started := true, sessions := [(7, { id := 7, socket := 3 })],
            nextId := 8, pending := 1 } 2).2.2 =
         [Event.insertSession 8 { id := 8, socket := 2 },
          Event.onConnected { id := 8, socket := 2 }]
     ∧ mapFind ((RegisterSession
          { started := true, sessions := [(7, { id := 7, socket := 3 })],
            nextId := 8, pending := 1 } 2).2.1).sessions 8 =
         some { id := 8, socket := 2 }
     ∧ (((RegisterSession
          { started := true, sessions := [(7, { id := 7, socket := 3 })],
            nextId := 8, pending := 1 } 2).2.1).sessions.map Prod.fst).Nodup)
  ∧ (∀ sess, mapFind [(7, ({ id := 7, socket := 3 } : Session))] 7 =
        some sess →
       (UnregisterSession
          { started := true, sessions := [(7, { id := 7, socket := 3 })],
            nextId := 8, pending := 1 } 7).2 =
         [Event.eraseSession 7, Event.onDisconnected sess]
     ∧ mapFind ((UnregisterSession
          { started := true, sessions := [(7, { id := 7, socket := 3 })],
            nextId := 8, pending := 1 } 7).1).sessions 7 = none
     ∧ (((UnregisterSession
          { started := true, sessions := [(7, { id := 7, socket := 3 })],
            nextId := 8, pending := 1 } 7).1).sessions.map Prod.fst).Nodup) := by
  refine ⟨by decide, ?_⟩
  exact claim4_registry_ordering
    { started := true, sessions := [(7, { id := 7, socket := 3 })],
      nextId := 8, pending := 1 } 2 7 (by decide)

/-- C3: while the server is started, an accept completion that reports an
error fires `onError` with the code's value, category name and message,
registers no session (registry and identifier generator untouched), and
re-arms exactly one next accept, so the number of outstanding accepts is
unchanged; composing with a subsequent successful accept completion shows
the next real connection is still registered and announced. -/
theorem claim3_accept_error_nonfatal (s : ServerState) (ec : ErrorInfo)
    (sock sock' : Nat) (c m : String)
    (hstart : s.started = true) (herr : ¬ ec.value = 0)
    (hpend : 1 ≤ s.pending)
    (hfresh : mapFind s.sessions s.nextId = none) :
    (acceptHandler s ec sock).2 =
      [Event.onError ec.value ec.category ec.message, Event.armAccept]
  ∧ ((acceptHandler s ec sock).1).sessions = s.sessions
  ∧ ((acceptHandler s ec sock).1).nextId = s.nextId
  ∧ ((acceptHandler s ec sock).1).started = true
  ∧ ((acceptHandler s ec sock).1).pending = s.pending
  ∧ mapFind ((acceptHandler ((acceptHandler s ec sock).1)
        { value := 0, category := c, message := m } sock').1).sessions
        s.nextId = some { id := s.nextId, socket := sock' }
  ∧ Event.onConnected { id := s.nextId, socket := sock' } ∈
      (acceptHandler ((acceptHandler s ec sock).1)
        { value := 0, category := c, message := m } sock').2 := by
  have h1 : acceptHandler s ec sock =
      ({ s with pending := s.pending - 1 + 1 },
       [Event.onError ec.value ec.category ec.message, Event.armAccept]) := by
    simp [acceptHandler, herr, ServerAccept, IsStarted, hstart]
  have hp : s.pending - 1 + 1 = s.pending := Nat.succ_pred_eq_of_pos hpend
  refine ⟨by rw [h1], by rw [h1], by rw [h1], by rw [h1]; exact hstart,
    by rw [h1]; exact hp, ?_, ?_⟩
  · rw [h1]
    simp only [acceptHandler, if_pos rfl, RegisterSession, ServerAccept,
      IsStarted, hstart]
    simp only [Bool.not_true, Bool.false_eq_true, if_false]
    exact mapFind_emplace_self s.sessions s.nextId _ hfresh
  · rw [h1]
    simp [acceptHandler, RegisterSession, ServerAccept, IsStarted, hstart]

/-- Witness for C3: an aborted accept followed by a successful one. -/
theorem claim3_witness :
    ({ started := true, sessions := [], nextId := 0,
       pending := 1 } : ServerState).started = true
  ∧ ¬ (({ value := 103, category := "system",
          message := "Software caused connection abort" } :
          ErrorInfo).value = 0)
  ∧ 1 ≤ ({ started := true, sessions := [], nextId := 0,
           pending := 1 } : ServerState).pending
  ∧ mapFind ([] : List (Nat × Session)) 0 = none
  ∧ (acceptHandler
       { started := true, sessions := [], nextId := 0, pending := 1 }
       { value := 103, category := "system",
         message := "Software caused connection abort" } 5).2 =
      [Event.onError 103 "system" "Software caused connection abort",
       Event.armAccept]
  ∧ Event.onConnected { id := 0, socket := 6 } ∈
      (acceptHandler
        ((acceptHandler
           { started := true, sessions := [], nextId := 0, pending := 1 }
           { value := 103, category := "system",
             message := "Software caused connection abort" } 5).1)
        { value := 0, category := "system", message := "Success" } 6).2 := by
  have h := claim3_accept_error_nonfatal
    { started := true, sessions := [], nextId := 0, pending := 1 }
    { value := 103, category := "system",
      message := "Software caused connection abort" }
    5 6 "system" "Success" rfl (by decide) (by decide) (by decide)
  exact ⟨rfl, by decide, by decide, by decide, h.1, h.2.2.2.2.2.2⟩

/-- C2: an effective `Stop` joins the server thread (its last action, so the
call returns only after the loop thread has exited), sends a disconnect
signal to every session registered at the time of the call, and leaves the
registry empty.  The hypothesis that each registry entry is keyed by its
session's identifier is the invariant `RegisterSession` establishes. -/
theorem claim2_stop_quiesces (s : SysState)
    (hstart : IsStarted s.srv = true)
    (hkeys : ∀ p ∈ s.srv.sessions, p.1 = p.2.id) :
    ((Stop s).1).threadJoined = true
  ∧ ((Stop s).1).srv.sessions = []
  ∧ (∀ p ∈ s.srv.sessions, Event.disconnectSignal p.2.id ∈ (Stop s).2)
  ∧ ((Stop s).2).getLast? = some Event.threadJoin := by
  have hb : (!IsStarted s.srv) = false := by simp [hstart]
  have hstop : Stop s =
      ({ s with srv := (DisconnectAll { s.srv with started := false }).1,
                threadJoined := true },
       Event.onStopping ::
         (DisconnectAll { s.srv with started := false }).2 ++
         [Event.serviceStop, Event.threadJoin]) := by
    rw [Stop, hb]
    simp
  refine ⟨by rw [hstop], ?_, ?_, ?_⟩
  · rw [hstop]
    exact disconnectList_empties s.srv.sessions _ rfl hkeys
  · intro p hp
    rw [hstop]
    have := disconnectList_signals s.srv.sessions
      { s.srv with started := false } p hp
    exact List.mem_cons_of_mem _ (List.mem_append_left _ this)
  · rw [hstop]
    have : Event.onStopping ::
        (DisconnectAll { s.srv with started := false }).2 ++
        [Event.serviceStop, Event.threadJoin] =
        (Event.onStopping ::
          (DisconnectAll { s.srv with started := false }).2 ++
          [Event.serviceStop]) ++ [Event.threadJoin] := by
      simp
    rw [this, List.getLast?_concat]

/-- Witness for C2: stopping a started server holding one session. -/
theorem claim2_witness :
    IsStarted ({ srv := { started := true,
                          sessions := [(3, { id := 3, socket := 8 })],
                          nextId := 4, pending := 1 },
                 threadSpawned := true, threadJoined := false,
                 loopArmed := true } : SysState).srv = true
  ∧ ((Stop { srv := { started := true,
                      sessions := [(3, { id := 3, socket := 8 })],
                      nextId := 4, pending := 1 },
             threadSpawned := true, threadJoined := false,
             loopArmed := true }).1).threadJoined = true
  ∧ ((Stop { srv := { started := true,
                      sessions := [(3, { id := 3, socket := 8 })],
                      nextId := 4, pending := 1 },
             threadSpawned := true, threadJoined := false,
             loopArmed := true }).1).srv.sessions = []
  ∧ Event.disconnectSignal 3 ∈
      (Stop { srv := { started := true,
                       sessions := [(3, { id := 3, socket := 8 })],
                       nextId := 4, pending := 1 },
              threadSpawned := true, threadJoined := false,
              loopArmed := true }).2
  ∧ ((Stop { srv := { started := true,
                      sessions := [(3, { id := 3, socket := 8 })],
                      nextId := 4, pending := 1 },
             threadSpawned := true, threadJoined := false,
             loopArmed := true }).2).getLast? = some Event.threadJoin := by
  have h := claim2_stop_quiesces
    { srv := { started := true, sessions := [(3, { id := 3, socket := 8 })],
               nextId := 4, pending := 1 },
      threadSpawned := true, threadJoined := false, loopArmed := true }
    rfl (by decide)
  exact ⟨rfl, h.1, h.2.1,
    h.2.2.1 (3, { id := 3, socket := 8 }) (by decide), h.2.2.2⟩

/-- C6: on a normal (non-faulting) run of the loop thread with the started
flag set, the observable trace is exactly: thread-initialize hook,
`onStarted`, the arming of the first accept, the dispatch-loop `onError`
reports (one per erroring `_service.run` iteration, never escalated), then
`onStopped` and the thread-cleanup hook. -/
theorem claim6_loop_hook_order (s : ServerState)
    (iters : List (Option ErrorInfo)) (hstart : s.started = true) :
    ServerLoop s iters none =
      [Event.onThreadInit, Event.onStarted, Event.armAccept] ++
        dispatchEvents iters ++ [Event.onStopped, Event.onThreadCleanup]
  ∧ ∀ e ∈ dispatchEvents iters, ∃ v c m, e = Event.onError v c m := by
  constructor
  · simp [ServerLoop, serverLoopBody, ServerAccept, IsStarted, hstart]
  · intro e he
    rcases List.mem_filterMap.1 he with ⟨o, _, ho⟩
    cases o with
    | none => simp at ho
    | some err =>
        refine ⟨err.value, err.category, err.message, ?_⟩
        simpa using ho.symm

/-- Witness for C6: one erroring and one clean dispatch iteration. -/
theorem claim6_witness :
    ({ started := true, sessions := [], nextId := 0,
       pending := 0 } : ServerState).started = true
  ∧ ServerLoop { started := true, sessions := [], nextId := 0, pending := 0 }
      [some { value := 125, category := "system",
              message := "Operation canceled" }, none] none =
      [Event.onThreadInit, Event.onStarted, Event.armAccept] ++
        dispatchEvents [some { value := 125, category := "system",
                               message := "Operation canceled" }, none] ++
        [Event.onStopped, Event.onThreadCleanup] := by
  have h := claim6_loop_hook_order
    { started := true, sessions := [], nextId := 0, pending := 0 }
    [some { value := 125, category := "system",
            message := "Operation canceled" }, none] rfl
  exact ⟨rfl, h.1⟩

/-- No dispatch-loop report is the `onStopped` hook. -/
lemma onStopped_not_mem_dispatch (iters : List (Option ErrorInfo)) :
    Event.onStopped ∉ dispatchEvents iters := by
  intro h
  rcases List.mem_filterMap.1 h with ⟨o, _, ho⟩
  cases o with
  | none => simp at ho
  | some err => simp at ho

/-- C10: when an exception escapes the try block of the loop thread after
`k` of its completed steps (any `k` short of a full run), the catch handler
fires the fatality hook with "TCP server thread terminated!", the
`onStopped` hook is not fired on that run, and the thread-cleanup hook still
fires, last of all. -/
theorem claim10_loop_fault_path (s : ServerState)
    (iters : List (Option ErrorInfo)) (k : Nat)
    (hk : k < (serverLoopBody s iters).length) :
    Event.fatality "TCP server thread terminated!" ∈
      ServerLoop s iters (some k)
  ∧ Event.onStopped ∉ ServerLoop s iters (some k)
  ∧ (ServerLoop s iters (some k)).getLast? = some Event.onThreadCleanup := by
  have hbody : serverLoopBody s iters =
      (Event.onStarted :: (ServerAccept s).2 ++ dispatchEvents iters) ++
        [Event.onStopped] := by
    simp [serverLoopBody]
  have hfrontlen : k ≤
      (Event.onStarted :: (ServerAccept s).2 ++ dispatchEvents iters).length := by
    rw [hbody, List.length_append, List.length_singleton] at hk
    exact Nat.lt_succ_iff.1 hk
  have htake : (serverLoopBody s iters).take k =
      (Event.onStarted :: (ServerAccept s).2 ++ dispatchEvents iters).take k := by
    rw [hbody, List.take_append_eq_append_take,
      Nat.sub_eq_zero_of_le hfrontlen]
    simp
  have hnostop : Event.onStopped ∉ (serverLoopBody s iters).take k := by
    rw [htake]
    intro hmem
    have hmem' := List.take_subset k _ hmem
    simp only [List.cons_append, List.mem_cons, List.mem_append] at hmem'
    rcases hmem' with h | h | h
    · exact Event.noConfusion h
    · unfold ServerAccept at h
      by_cases hs : IsStarted s
      · rw [if_neg (by simp [hs])] at h
        simp at h
      · rw [if_pos (by simp [hs])] at h
        simp at h
    · exact onStopped_not_mem_dispatch iters h
  refine ⟨?_, ?_, ?_⟩
  · simp [ServerLoop]
  · simp only [ServerLoop, List.cons_append, List.mem_cons, List.mem_append]
    intro hmem
    rcases hmem with h | h | h
    · exact Event.noConfusion h
    · exact hnostop h
    · simp at h
  · show (Event.onThreadInit :: ((serverLoopBody s iters).take k ++
      [Event.fatality "TCP server thread terminated!",
       Event.onThreadCleanup])).getLast? = some Event.onThreadCleanup
    have : Event.onThreadInit :: ((serverLoopBody s iters).take k ++
        [Event.fatality "TCP server thread terminated!",
         Event.onThreadCleanup]) =
        (Event.onThreadInit :: (serverLoopBody s iters).take k ++
          [Event.fatality "TCP server thread terminated!"]) ++
          [Event.onThreadCleanup] := by
      simp
    rw [this, List.getLast?_concat]

/-- Witness for C10: the exception escapes right after `onStarted`. -/
theorem claim10_witness :
    1 < (serverLoopBody
          { started := true, sessions := [], nextId := 0, pending := 0 }
          []).length
  ∧ Event.fatality "TCP server thread terminated!" ∈
      ServerLoop { started := true, sessions := [], nextId := 0, pending := 0 }
        [] (some 1)
  ∧ Event.onStopped ∉
      ServerLoop { started := true, sessions := [], nextId := 0, pending := 0 }
        [] (some 1)
  ∧ (ServerLoop { started := true, sessions := [], nextId := 0, pending := 0 }
        [] (some 1)).getLast? = some Event.onThreadCleanup := by
  have h := claim10_loop_fault_path
    { started := true, sessions := [], nextId := 0, pending := 0 } [] 1
    (by decide)
  exact ⟨by decide, h.1, h.2.1, h.2.2⟩

/-- A started accept handler consumes its completed operation and arms
exactly one successor, preserving the started flag. -/
lemma acceptHandler_started_pending (s : ServerState) (ec : ErrorInfo)
    (sock : Nat) (hstart : s.started = true) :
    (acceptHandler s ec sock).1.started = true
  ∧ (acceptHandler s ec sock).1.pending = s.pending - 1 + 1 := by
  unfold acceptHandler
  by_cases h : ec.value = 0 <;>
    simp [h, RegisterSession, ServerAccept, IsStarted, hstart]

/-- A non-started accept handler consumes its completed operation and arms
nothing. -/
lemma acceptHandler_not_started (s : ServerState) (ec : ErrorInfo)
    (sock : Nat) (hstart : s.started = false) :
    (acceptHandler s ec sock).1.pending = s.pending - 1 := by
  unfold acceptHandler
  by_cases h : ec.value = 0 <;>
    simp [h, RegisterSession, ServerAccept, IsStarted, hstart]

/-- The inductive invariant of the server system: at most one accept is ever
outstanding; a spawned, un-joined thread means the server is started; the
loop thread only arms after being spawned; nothing is outstanding before the
loop thread's first arm; and once the loop thread has armed, a started
server has exactly one accept outstanding. -/
def Inv (s : SysState) : Prop :=
    s.srv.pending ≤ 1
  ∧ (s.threadSpawned = true → s.threadJoined = false →
       s.srv.started = true)
  ∧ (s.loopArmed = true → s.threadSpawned = true)
  ∧ (s.loopArmed = false → s.srv.pending = 0)
  ∧ (s.srv.started = true → s.loopArmed = true → s.srv.pending = 1)

/-- The fresh server satisfies the invariant. -/
lemma inv_init : Inv initState := by
  refine ⟨?_, ?_, ?_, ?_, ?_⟩ <;> simp [initState]

/-- Every step preserves the invariant. -/
lemma inv_step {s s' : SysState} (h : Inv s) (hs : Step s s') : Inv s' := by
  obtain ⟨h1, h2, h3, h4, h5⟩ := h
  cases hs with
  | start hguard =>
      unfold Start
      by_cases hst : IsStarted s.srv = true
      · rw [if_pos hst]
        exact ⟨h1, h2, h3, h4, h5⟩
      · rw [if_neg hst]
        refine ⟨h1, fun _ _ => rfl, fun _ => rfl, h4, fun _ harm => ?_⟩
        exact absurd (h2 (h3 harm) hguard) hst
  | stop =>
      unfold Stop
      by_cases hst : IsStarted s.srv = true
      · rw [if_neg (by simp [hst])]
        have hDA := disconnectList_preserve
          ({ s.srv with started := false }).sessions
          { s.srv with started := false }
        refine ⟨?_, ?_, h3, ?_, ?_⟩
        · show (DisconnectAll { s.srv with started := false }).1.pending ≤ 1
          rw [DisconnectAll, hDA.2.1]
          exact h1
        · intro _ hj
          exact absurd hj (by simp)
        · intro harm
          show (DisconnectAll { s.srv with started := false }).1.pending = 0
          rw [DisconnectAll, hDA.2.1]
          exact h4 harm
        · intro hstarted _
          exact absurd (hDA.1.symm.trans hstarted) (by simp)
      · rw [if_pos (by simp [hst])]
        exact ⟨h1, h2, h3, h4, h5⟩
  | loopInit hsp hj harm =>
      have hstarted : s.srv.started = true := h2 hsp hj
      have hpend0 : s.srv.pending = 0 := h4 harm
      have hsa : (loopInitStep s.srv).1 =
          { s.srv with pending := s.srv.pending + 1 } := by
        simp [loopInitStep, ServerAccept, IsStarted, hstarted]
      refine ⟨?_, fun _ _ => ?_, fun _ => hsp, ?_, fun _ _ => ?_⟩
      · show (loopInitStep s.srv).1.pending ≤ 1
        rw [hsa]
        simp [hpend0]
      · show (loopInitStep s.srv).1.started = true
        rw [hsa]
        exact hstarted
      · intro habs
        exact absurd habs (by simp)
      · show (loopInitStep s.srv).1.pending = 1
        rw [hsa]
        simp [hpend0]
  | accept ec sock hsp hj hp =>
      have hstarted : s.srv.started = true := h2 hsp hj
      have harmed : s.loopArmed = true := by
        cases harm : s.loopArmed
        · rw [h4 harm] at hp
          exact absurd hp (by simp)
        · rfl
      have hpend1 : s.srv.pending = 1 := h5 hstarted harmed
      have hAH := acceptHandler_started_pending s.srv ec sock hstarted
      have hpend' : (acceptHandler s.srv ec sock).1.pending = 1 := by
        rw [hAH.2, hpend1]
      refine ⟨?_, fun _ _ => hAH.1, fun _ => hsp, ?_, fun _ _ => hpend'⟩
      · show (acceptHandler s.srv ec sock).1.pending ≤ 1
        rw [hpend']
      · intro habs
        rw [harmed] at habs
        exact absurd habs (by simp)

/-- Every reachable state satisfies the invariant. -/
lemma reachable_inv {s : SysState} (h : Reachable s) : Inv s := by
  induction h with
  | init => exact inv_init
  | step _ hs ih => exact inv_step ih hs

/-- C1 counterexample: the claim as stated fails in the window after
`Start` has returned but before the loop thread has armed the first accept —
a reachable state in which the server is started and no accept at all is
outstanding. -/
theorem claim1_counterexample :
    Reachable ((Start initState).1)
  ∧ ((Start initState).1).srv.started = true
  ∧ ¬ ((Start initState).1).srv.pending = 1 :=
  ⟨Reachable.step Reachable.init (Step.start initState rfl),
   by decide, by decide⟩

/-- C1 (amended): in every reachable state, at most one accept is
outstanding; once the loop thread has armed the first accept, a started
server has exactly one accept outstanding at every instant; and each accept
completion dispatched while the server is started arms exactly one
successor, leaving the number of outstanding accepts unchanged — accepts
are strictly serialized. -/
theorem claim1_accept_serialized (s : SysState) (h : Reachable s) :
    s.srv.pending ≤ 1
  ∧ (s.srv.started = true → s.loopArmed = true → s.srv.pending = 1)
  ∧ (s.srv.started = true → 1 ≤ s.srv.pending → ∀ ec sock,
       (acceptHandler s.srv ec sock).1.pending = s.srv.pending) := by
  have hinv := reachable_inv h
  refine ⟨hinv.1, hinv.2.2.2.2, fun hst hp ec sock => ?_⟩
  rw [(acceptHandler_started_pending s.srv ec sock hst).2]
  omega

/-- Witness for C1 at the concrete reachable state after `Start`. -/
theorem claim1_witness :
    Reachable ((Start initState).1)
  ∧ ((Start initState).1).srv.pending ≤ 1
  ∧ (((Start initState).1).srv.started = true →
       ((Start initState).1).loopArmed = true →
       ((Start initState).1).srv.pending = 1)
  ∧ (((Start initState).1).srv.started = true →
       1 ≤ ((Start initState).1).srv.pending → ∀ ec sock,
       (acceptHandler ((Start initState).1).srv ec sock).1.pending =
         ((Start initState).1).srv.pending) :=
  ⟨Reachable.step Reachable.init (Step.start initState rfl),
   claim1_accept_serialized ((Start initState).1)
     (Reachable.step Reachable.init (Step.start initState rfl))⟩

/-- C8: `ServerAccept` invoked on a non-started server returns immediately
without scheduling anything (state and events untouched); consequently no
step taken from a non-started system state ever increases the number of
outstanding accepts — no accept is armed while the server is stopped. -/
theorem claim8_no_arm_when_stopped (s : ServerState) (t t' : SysState) :
    (s.started = false → ServerAccept s = (s, []))
  ∧ (Step t t' → t.srv.started = false →
       t'.srv.pending ≤ t.srv.pending) := by
  constructor
  · intro h
    simp [ServerAccept, IsStarted, h]
  · intro hstep hns
    cases hstep with
    | start hguard =>
        unfold Start
        by_cases hst : IsStarted t.srv = true
        · rw [if_pos hst]
        · rw [if_neg hst]
    | stop =>
        unfold Stop
        rw [if_pos (by simp [IsStarted, hns])]
    | loopInit hsp hj harm =>
        show (loopInitStep t.srv).1.pending ≤ t.srv.pending
        have : (loopInitStep t.srv).1 = t.srv := by
          simp [loopInitStep, ServerAccept, IsStarted, hns]
        rw [this]
    | accept ec sock hsp hj hp =>
        show (acceptHandler t.srv ec sock).1.pending ≤ t.srv.pending
        rw [acceptHandler_not_started t.srv ec sock hns]
        omega

/-- Witness for C8: a stopped server and a concrete step from it. -/
theorem claim8_witness :
    ({ started := false, sessions := [], nextId := 0,
       pending := 0 } : ServerState).started = false
  ∧ ServerAccept { started := false, sessions := [], nextId := 0,
                   pending := 0 } =
      ({ started := false, sessions := [], nextId := 0, pending := 0 }, [])
  ∧ initState.srv.started = false
  ∧ ((Stop initState).1).srv.pending ≤ initState.srv.pending :=
  ⟨rfl,
   (claim8_no_arm_when_stopped
     { started := false, sessions := [], nextId := 0, pending := 0 }
     initState (Stop initState).1).1 rfl,
   rfl,
   (claim8_no_arm_when_stopped
     { started := false, sessions := [], nextId := 0, pending := 0 }
     initState (Stop initState).1).2 (Step.stop initState) rfl⟩

end CppServer
